import Mathlib

/-
Verification of the customer-segmentation prediction pipeline (src/app.py).

The embedding models the pipeline of the Flask application: form parsing,
input validation, feature scaling, nearest-centroid cluster assignment, the
append-only observation store, and the chart-batch generator. External
effects that can fail (os.makedirs, template rendering, matplotlib chart
rendering) are modelled by an explicit environment record; the frozen
inference artifacts (the scaler and the kmeans centroids), which live in
pickle files outside the source tree, are modelled from the spec.
-/

namespace App

/-- A 3-element feature vector (age, income, score order), with exact
rational arithmetic standing in for the floating-point arithmetic of the
source. -/
structure Vec3 where
  x : ℚ
  y : ℚ
  z : ℚ
deriving DecidableEq

/-- Modelled from the spec: the frozen Scaler artifact (models/scaler.pkl is
not in the source tree). Per the spec it is a frozen per-feature transform
parameterized by center and scale values fixed at load time. -/
structure Scaler where
  center : Vec3
  scale : Vec3
deriving DecidableEq

/-- Modelled from the spec: applying the Scaler to a raw vector, the fixed
per-feature transform (value minus center, divided by scale). -/
def transform (s : Scaler) (v : Vec3) : Vec3 :=
  ⟨(v.x - s.center.x) / s.scale.x,
   (v.y - s.center.y) / s.scale.y,
   (v.z - s.center.z) / s.scale.z⟩

/-- State-passing form of the scaler application: the result vector together
with the scaler object as it stands after the call. The source calls
scaler.transform(data), which reads the fitted parameters and never writes
them, so the returned scaler is the argument unchanged. -/
def transformS (s : Scaler) (v : Vec3) : Vec3 × Scaler :=
  (transform s v, s)

/-- Squared Euclidean distance between two feature vectors. -/
def distSq (v w : Vec3) : ℚ :=
  (v.x - w.x) ^ 2 + (v.y - w.y) ^ 2 + (v.z - w.z) ^ 2

/-- Index of the first minimal element of a list of distances: the argmin
rule of the underlying library (numpy argmin inside kmeans.predict), which
returns the lowest index on ties. Modelled from the spec: ties broken by
lowest label index. Returns 0 on the empty list (never reached by a fitted
model, which has at least one centroid). -/
def argminList : List ℚ → Nat
  | [] => 0
  | [_] => 0
  | d :: e :: tl =>
    if (e :: tl).getD (argminList (e :: tl)) 0 < d then argminList (e :: tl) + 1 else 0

/-- Modelled from the spec: the cluster assignment rule of the frozen Cluster
Model (models/kmeans_model.pkl is not in the source tree) — the label of the
centroid nearest to the normalized vector by Euclidean distance, ties broken
by lowest index. Argmin over squared distances, which induces the same order
as Euclidean distances. -/
def nearestCentroid (cs : List Vec3) (v : Vec3) : Nat :=
  argminList (cs.map (fun c => distSq v c))

lemma argminList_lt_length (ds : List ℚ) (h : ds ≠ []) : argminList ds < ds.length := by
  induction ds with
  | nil => simp at h
  | cons d tl ih =>
    cases tl with
    | nil => simp [argminList]
    | cons e tl2 =>
      have ih2 := ih (by simp)
      simp only [List.length_cons] at ih2 ⊢
      by_cases hc : (e :: tl2).getD (argminList (e :: tl2)) 0 < d
      · simp only [argminList, if_pos hc]
        omega
      · simp only [argminList, if_neg hc]
        omega

lemma argminList_min (ds : List ℚ) : ∀ j < ds.length, ds.getD (argminList ds) 0 ≤ ds.getD j 0 := by
  induction ds with
  | nil => intro j hj; simp at hj
  | cons d tl ih =>
    cases tl with
    | nil =>
      intro j hj
      simp only [List.length_cons, List.length_nil] at hj
      have hj0 : j = 0 := by omega
      subst hj0
      simp [argminList]
    | cons e tl2 =>
      intro j hj
      by_cases hc : (e :: tl2).getD (argminList (e :: tl2)) 0 < d
      · simp only [argminList, if_pos hc, List.getD_cons_succ]
        cases j with
        | zero => simpa using le_of_lt hc
        | succ j2 =>
          simp only [List.getD_cons_succ]
          exact ih j2 (by simpa using Nat.lt_of_succ_lt_succ hj)
      · simp only [argminList, if_neg hc, List.getD_cons_zero]
        push_neg at hc
        cases j with
        | zero => simp
        | succ j2 =>
          simp only [List.getD_cons_succ]
          exact le_trans hc (ih j2 (by simpa using Nat.lt_of_succ_lt_succ hj))

lemma argminList_first (ds : List ℚ) :
    ∀ j < argminList ds, ds.getD j 0 > ds.getD (argminList ds) 0 := by
  induction ds with
  | nil => intro j hj; simp [argminList] at hj
  | cons d tl ih =>
    cases tl with
    | nil => intro j hj; simp [argminList] at hj
    | cons e tl2 =>
      intro j hj
      by_cases hc : (e :: tl2).getD (argminList (e :: tl2)) 0 < d
      · simp only [argminList, if_pos hc, List.getD_cons_succ] at hj ⊢
        cases j with
        | zero => simpa using hc
        | succ j2 =>
          simp only [List.getD_cons_succ]
          exact ih j2 (Nat.lt_of_succ_lt_succ hj)
      · rw [argminList, if_neg hc] at hj
        omega

/-- One observation as stored in data_store (src/app.py line 144): the raw
submitted values plus the assigned cluster label. -/
structure Obs where
  age : ℤ
  income : ℤ
  score : ℤ
  cluster : Nat
deriving DecidableEq

/-- One form field of the predict request: absent from the form, present but
not parseable as an integer, or an integer value. -/
inductive Field where
  | missing
  | nonNumeric
  | intVal (n : ℤ)
deriving DecidableEq

/-- Parsing one field as in src/app.py lines 133-135: request.form.get
returns the default 0 when the field is absent, so int(...) yields 0; a
non-numeric string makes int(...) raise (modelled as none); an integer
string parses to its value. -/
def parseField : Field → Option ℤ
  | .missing => some 0
  | .nonNumeric => none
  | .intVal n => some n

/-- The three form fields of a predict request. -/
structure Form where
  age : Field
  income : Field
  score : Field
deriving DecidableEq

/-- The execution environment of one request: whether os.makedirs succeeds
(src/app.py line 146), whether template rendering succeeds (line 149), and
whether matplotlib raises while producing chart number chartFail (none means
all four charts render). -/
structure Env where
  mkdirsOk : Bool
  renderOk : Bool
  chartFail : Option Nat
deriving DecidableEq

/-- The frozen inference artifacts loaded at process start: the Scaler and
the centroid list of the Cluster Model. -/
structure Model where
  scaler : Scaler
  centroids : List Vec3
deriving DecidableEq

/-- The validation check of src/app.py line 137:
all([age > 0, income > 0, 0 < score <= 100]). -/
def validInput (age income score : ℤ) : Bool :=
  decide (0 < age) && decide (0 < income) && decide (0 < score) && decide (score ≤ 100)

lemma validInput_iff (age income score : ℤ) :
    validInput age income score = true ↔ 0 < age ∧ 0 < income ∧ 0 < score ∧ score ≤ 100 := by
  simp [validInput, and_assoc]

/-- The stable short keys of the four chart artifacts, in generation order
(src/app.py lines 173, 184, 195, 206). -/
def chartKeys : List String :=
  ["income_vs_score", "age_vs_score", "age_vs_income", "cluster_distribution"]

/-- The four dictionary entries built by generate_visualizations when all
charts render: key and artifact file name. -/
def chartEntries : List (String × String) :=
  [("income_vs_score", "income_vs_score.png"),
   ("age_vs_score", "age_vs_score.png"),
   ("age_vs_income", "age_vs_income.png"),
   ("cluster_distribution", "cluster_distribution.png")]

/-- The chart loop body: entries are added to the images dictionary one at a
time; an exception while producing chart number i aborts the loop with the
partial dictionary discarded by the handler. -/
def buildChartsAux (failAt : Option Nat) : Nat → List (String × String) → List (String × String) → Except String (List (String × String))
  | _, [], acc => .ok acc
  | i, entry :: rest, acc =>
    if failAt = some i then .error "Error generating visualizations"
    else buildChartsAux failAt (i + 1) rest (acc ++ [entry])

/-- Producing the four chart entries in order, aborted by the first failure. -/
def buildCharts (failAt : Option Nat) : Except String (List (String × String)) :=
  buildChartsAux failAt 0 chartEntries []

/-- generate_visualizations (src/app.py lines 156-212): an empty data_store
returns None immediately; otherwise the four charts are produced inside a
try block whose except handler logs the failure and returns None. The result
is the pair (returned images dictionary, log lines printed) together with
the data_store as the function leaves it (it only reads the store). -/
def generate_visualizations (env : Env) (store : List Obs) :
    (Option (List (String × String)) × List String) × List Obs :=
  if store.isEmpty then ((none, []), store)
  else
    match buildCharts env.chartFail with
    | .ok imgs => ((some imgs, []), store)
    | .error msg => ((none, [msg]), store)

/-- The summary string of src/app.py line 150. -/
def summaryString (c : Nat) : String :=
  "Customer belongs to Cluster " ++ toString c

/-- The response of the predict route: the rendered results page carrying
the prediction string and the images dictionary, or the flash-and-redirect
error path of the except handler (src/app.py lines 152-154). -/
inductive PredictResult where
  | page (prediction : String) (images : Option (List (String × String)))
  | errorRedirect (msg : String)
deriving DecidableEq

/-- The raw 3-element feature vector [age, income, score] of src/app.py
line 140. -/
def rawVec (age income score : ℤ) : Vec3 :=
  ⟨(age : ℚ), (income : ℚ), (score : ℚ)⟩

/-- The label assigned to a raw input: scale, then nearest centroid
(src/app.py lines 141-142). -/
def assignedLabel (m : Model) (age income score : ℤ) : Nat :=
  nearestCentroid m.centroids (transform m.scaler (rawVec age income score))

/-- The observation appended for a raw input (src/app.py line 144). -/
def mkObs (m : Model) (age income score : ℤ) : Obs :=
  ⟨age, income, score, assignedLabel m age income score⟩

/-- The predict route (src/app.py lines 129-154). Input: the model
artifacts, the request environment, the form and the current data_store.
Output: the response, the data_store after the request, and the log lines
printed. All exceptions inside the try block (int parsing, the validation
ValueError, makedirs, rendering) reach the except handler, which flashes an
error message and redirects; chart failures are already swallowed inside
generate_visualizations and do not reach it. -/
def predict (m : Model) (env : Env) (f : Form) (store : List Obs) :
    PredictResult × List Obs × List String :=
  match parseField f.age, parseField f.income, parseField f.score with
  | some age, some income, some score =>
    if validInput age income score then
      let obs := mkObs m age income score
      let store2 := store ++ [obs]
      if env.mkdirsOk then
        let vis := generate_visualizations env store2
        if env.renderOk then
          (.page (summaryString (assignedLabel m age income score)) vis.1.1, vis.2, vis.1.2)
        else
          (.errorRedirect "Error processing your request: render failed", vis.2, vis.1.2)
      else
        (.errorRedirect "Error processing your request: makedirs failed", store2, [])
    else
      (.errorRedirect "Error processing your request: Invalid input values", store, [])
  | _, _, _ =>
    (.errorRedirect "Error processing your request: invalid literal for int", store, [])

lemma buildCharts_none : buildCharts none = .ok chartEntries := rfl

lemma buildCharts_lt (k : Nat) (hk : k < 4) :
    buildCharts (some k) = .error "Error generating visualizations" := by
  interval_cases k <;> rfl

lemma buildCharts_ge (k : Nat) (hk : 4 ≤ k) : buildCharts (some k) = .ok chartEntries := by
  have h0 : k ≠ 0 := by omega
  have h1 : k ≠ 1 := by omega
  have h2 : k ≠ 2 := by omega
  have h3 : k ≠ 3 := by omega
  simp [buildCharts, chartEntries, buildChartsAux, h0, h1, h2, h3]

lemma buildCharts_ok_eq (failAt : Option Nat) (imgs : List (String × String))
    (h : buildCharts failAt = .ok imgs) : imgs = chartEntries := by
  rcases failAt with _ | k
  · rw [buildCharts_none] at h
    exact (Except.ok.inj h).symm
  · by_cases hk : k < 4
    · rw [buildCharts_lt k hk] at h
      exact absurd h (by simp)
    · rw [buildCharts_ge k (by omega)] at h
      exact (Except.ok.inj h).symm

lemma gv_preserves_store (env : Env) (store : List Obs) :
    (generate_visualizations env store).2 = store := by
  cases store with
  | nil => rfl
  | cons o tl =>
    rcases hb : buildCharts env.chartFail with imgs | msg <;>
      simp [generate_visualizations, hb]

lemma gv_nonempty_some (env : Env) (store : List Obs) (hs : store ≠ [])
    (imgs : List (String × String))
    (h : (generate_visualizations env store).1.1 = some imgs) : imgs = chartEntries := by
  cases store with
  | nil => exact absurd rfl hs
  | cons o tl =>
    rcases hb : buildCharts env.chartFail with msg | imgs2
    · have hgv : generate_visualizations env (o :: tl) = ((none, [msg]), o :: tl) := by
        simp [generate_visualizations, hb]
      rw [hgv] at h
      exact absurd h (by simp)
    · have hgv : generate_visualizations env (o :: tl) = ((some imgs2, []), o :: tl) := by
        simp [generate_visualizations, hb]
      rw [hgv] at h
      have h3 : imgs2 = imgs := Option.some.inj h
      rw [← h3]
      exact buildCharts_ok_eq env.chartFail imgs2 hb

lemma predict_store_extends (m : Model) (env : Env) (f : Form) (store : List Obs) :
    ∃ t, (predict m env f store).2.1 = store ++ t := by
  rcases ha : parseField f.age with _ | a
  · exact ⟨[], by simp [predict, ha]⟩
  rcases hb : parseField f.income with _ | b
  · exact ⟨[], by simp [predict, ha, hb]⟩
  rcases hc : parseField f.score with _ | c
  · exact ⟨[], by simp [predict, ha, hb, hc]⟩
  by_cases hv : validInput a b c
  · by_cases hm : env.mkdirsOk
    · by_cases hr : env.renderOk
      · exact ⟨[mkObs m a b c], by
          simp [predict, ha, hb, hc, hv, hm, hr, gv_preserves_store]⟩
      · exact ⟨[mkObs m a b c], by
          simp [predict, ha, hb, hc, hv, hm, hr, gv_preserves_store]⟩
    · exact ⟨[mkObs m a b c], by simp [predict, ha, hb, hc, hv, hm]⟩
  · exact ⟨[], by simp [predict, ha, hb, hc, hv]⟩

lemma nearestCentroid_eq_argmin (cs : List Vec3) (v : Vec3) :
    argminList (cs.map (fun c => distSq v c)) = nearestCentroid cs v := rfl

lemma getD_map_distSq (v : Vec3) (cs : List Vec3) (j : Nat) (hj : j < cs.length) :
    (cs.map (fun c => distSq v c)).getD j 0 = distSq v (cs.getD j ⟨0, 0, 0⟩) := by
  induction cs generalizing j with
  | nil => simp at hj
  | cons c tl ih =>
    cases j with
    | zero => simp
    | succ j2 =>
      simp only [List.map_cons, List.getD_cons_succ]
      exact ih j2 (by simpa using Nat.lt_of_succ_lt_succ hj)

/-- C3: cluster assignment is the deterministic nearest-centroid rule: the
assigned label is a valid centroid index whose squared distance (hence whose
Euclidean distance) to the normalized vector is minimal over all centroids,
and every centroid with a strictly lower index is strictly farther, so ties
go to the lowest index. Determinism holds because nearestCentroid is a pure
function of the centroid list and the vector. -/
theorem nearestCentroid_minimal (cs : List Vec3) (v : Vec3) (h : cs ≠ []) :
    nearestCentroid cs v < cs.length ∧
    (∀ j, j < cs.length →
      distSq v (cs.getD (nearestCentroid cs v) ⟨0, 0, 0⟩) ≤ distSq v (cs.getD j ⟨0, 0, 0⟩) ∧
      Real.sqrt ((distSq v (cs.getD (nearestCentroid cs v) ⟨0, 0, 0⟩) : ℝ)) ≤
        Real.sqrt ((distSq v (cs.getD j ⟨0, 0, 0⟩) : ℝ))) ∧
    (∀ j, j < nearestCentroid cs v →
      distSq v (cs.getD j ⟨0, 0, 0⟩) > distSq v (cs.getD (nearestCentroid cs v) ⟨0, 0, 0⟩)) := by
  have hmapne : cs.map (fun c => distSq v c) ≠ [] := by
    simpa using h
  have hlen : (cs.map (fun c => distSq v c)).length = cs.length := by simp
  have hL : nearestCentroid cs v < cs.length := by
    have := argminList_lt_length (cs.map (fun c => distSq v c)) hmapne
    rw [hlen] at this
    exact this
  refine ⟨hL, ?_, ?_⟩
  · intro j hj
    have hmin := argminList_min (cs.map (fun c => distSq v c)) j (by rw [hlen]; exact hj)
    rw [nearestCentroid_eq_argmin, getD_map_distSq v cs j hj, getD_map_distSq v cs _ hL] at hmin
    refine ⟨hmin, Real.sqrt_le_sqrt ?_⟩
    exact_mod_cast hmin
  · intro j hj
    have hfirst := argminList_first (cs.map (fun c => distSq v c)) j
      (by rw [nearestCentroid_eq_argmin]; exact hj)
    rw [nearestCentroid_eq_argmin, getD_map_distSq v cs j (lt_trans hj hL),
      getD_map_distSq v cs _ hL] at hfirst
    exact hfirst

/-- C3 witness: the nearest-centroid property at a concrete two-centroid
model and vector. -/
theorem nearestCentroid_minimal_witness :
    ([(⟨0, 0, 0⟩ : Vec3), ⟨100, 100, 100⟩] ≠ []) ∧
    nearestCentroid [(⟨0, 0, 0⟩ : Vec3), ⟨100, 100, 100⟩] ⟨25, 40, 60⟩ <
      [(⟨0, 0, 0⟩ : Vec3), ⟨100, 100, 100⟩].length :=
  ⟨by simp,
   (nearestCentroid_minimal [⟨0, 0, 0⟩, ⟨100, 100, 100⟩] ⟨25, 40, 60⟩ (by simp)).1⟩

/-- C4: the Scaler is a pure, frozen per-feature transform: one application
returns the scaler unchanged, and a second application through the returned
scaler yields the identical normalized vector. -/
theorem transformS_frozen (s : Scaler) (v : Vec3) :
    (transformS s v).2 = s ∧
    (transformS ((transformS s v).2) v).1 = (transformS s v).1 :=
  ⟨rfl, rfl⟩

/-- A concrete scaler fixture: identity transform (center 0, scale 1). -/
def scaler0 : Scaler := ⟨⟨0, 0, 0⟩, ⟨1, 1, 1⟩⟩

/-- A concrete model fixture with two centroids. -/
def M0 : Model := ⟨scaler0, [⟨0, 0, 0⟩, ⟨100, 100, 100⟩]⟩

/-- The environment in which every external effect succeeds. -/
def env0 : Env := ⟨true, true, none⟩

/-- C1: for every valid input under a loaded model, in an environment where
the post-pipeline effects (makedirs, template rendering) succeed, predict
returns the results page carrying the summary string for the assigned label
together with the chart result for the extended store, appends exactly one
observation (the raw values plus the assigned label) to the store, and the
label is an index in the half-open range from 0 to the centroid count. -/
theorem predict_valid_succeeds (m : Model) (env : Env) (age income score : ℤ)
    (store : List Obs)
    (ha : 0 < age) (hi : 0 < income) (hs1 : 0 < score) (hs2 : score ≤ 100)
    (hmk : env.mkdirsOk = true) (hrd : env.renderOk = true) (hcs : m.centroids ≠ []) :
    predict m env ⟨.intVal age, .intVal income, .intVal score⟩ store =
      (.page (summaryString (assignedLabel m age income score))
         ((generate_visualizations env (store ++ [mkObs m age income score])).1.1),
       store ++ [mkObs m age income score],
       (generate_visualizations env (store ++ [mkObs m age income score])).1.2) ∧
    assignedLabel m age income score < m.centroids.length := by
  have hv : validInput age income score = true :=
    (validInput_iff age income score).mpr ⟨ha, hi, hs1, hs2⟩
  constructor
  · simp [predict, parseField, hv, hmk, hrd, gv_preserves_store]
  · have hb := argminList_lt_length
      (m.centroids.map (fun c => distSq (transform m.scaler (rawVec age income score)) c))
      (by simpa using hcs)
    simpa [assignedLabel, nearestCentroid] using hb

/-- C1 witness: the spec scenario age 25, income 40, score 60 on the
concrete two-centroid model, starting from the empty store. -/
theorem predict_valid_succeeds_witness :
    predict M0 env0 ⟨.intVal 25, .intVal 40, .intVal 60⟩ [] =
      (.page (summaryString (assignedLabel M0 25 40 60))
         ((generate_visualizations env0 ([] ++ [mkObs M0 25 40 60])).1.1),
       [] ++ [mkObs M0 25 40 60],
       (generate_visualizations env0 ([] ++ [mkObs M0 25 40 60])).1.2) ∧
    assignedLabel M0 25 40 60 < M0.centroids.length :=
  predict_valid_succeeds M0 env0 25 40 60 []
    (by decide) (by decide) (by decide) (by decide) rfl rfl (by decide)

/-- A form is invalid when some field fails integer parsing or the parsed
values fail the range validation of src/app.py line 137. -/
def invalidForm (f : Form) : Bool :=
  match parseField f.age, parseField f.income, parseField f.score with
  | some a, some i, some s => !(validInput a i s)
  | _, _, _ => true

lemma predict_invalid_aux (m : Model) (env : Env) (f : Form) (store : List Obs)
    (h : invalidForm f = true) :
    (predict m env f store).2.1 = store ∧
    ∃ msg, (predict m env f store).1 = PredictResult.errorRedirect msg := by
  rcases ha : parseField f.age with _ | a
  · exact ⟨by simp [predict, ha],
           "Error processing your request: invalid literal for int", by simp [predict, ha]⟩
  rcases hb : parseField f.income with _ | b
  · exact ⟨by simp [predict, ha, hb],
           "Error processing your request: invalid literal for int", by simp [predict, ha, hb]⟩
  rcases hc : parseField f.score with _ | c
  · exact ⟨by simp [predict, ha, hb, hc],
           "Error processing your request: invalid literal for int",
           by simp [predict, ha, hb, hc]⟩
  have hv : validInput a b c = false := by
    unfold invalidForm at h
    rw [ha, hb, hc] at h
    simpa using h
  exact ⟨by simp [predict, ha, hb, hc, hv],
         "Error processing your request: Invalid input values",
         by simp [predict, ha, hb, hc, hv]⟩

/-- C2: for every invalid input — a field that fails integer parsing or
parsed values outside the ranges age > 0, income > 0, 0 < score <= 100 —
predict takes the user-visible error path (flash and redirect, no unhandled
fault) and leaves the store exactly as it was. -/
theorem predict_invalid_unchanged (m : Model) (env : Env) (f : Form) (store : List Obs)
    (h : invalidForm f = true) :
    (predict m env f store).2.1 = store ∧
    ∃ msg, (predict m env f store).1 = PredictResult.errorRedirect msg :=
  predict_invalid_aux m env f store h

/-- C2 witness: the spec scenario age -1, income 40, score 60 is rejected
and the store of one prior observation is unchanged. -/
theorem predict_invalid_unchanged_witness :
    invalidForm ⟨.intVal (-1), .intVal 40, .intVal 60⟩ = true ∧
    (predict M0 env0 ⟨.intVal (-1), .intVal 40, .intVal 60⟩ [⟨1, 2, 3, 0⟩]).2.1 =
      [⟨1, 2, 3, 0⟩] ∧
    ∃ msg, (predict M0 env0 ⟨.intVal (-1), .intVal 40, .intVal 60⟩ [⟨1, 2, 3, 0⟩]).1 =
      PredictResult.errorRedirect msg :=
  ⟨by decide,
   predict_invalid_unchanged M0 env0 ⟨.intVal (-1), .intVal 40, .intVal 60⟩
     [⟨1, 2, 3, 0⟩] (by decide)⟩

/-- C5: the chart batch is all-or-nothing by store emptiness: on the empty
store generate_visualizations returns the null result with no log and no
store change, and on a non-empty store any returned (non-null) images
dictionary holds exactly the four charts keyed by the stable names
income_vs_score, age_vs_score, age_vs_income and cluster_distribution. -/
theorem generate_visualizations_contract (env : Env) (store : List Obs) :
    generate_visualizations env [] = ((none, []), []) ∧
    (store ≠ [] → ∀ imgs, (generate_visualizations env store).1.1 = some imgs →
      imgs.length = 4 ∧ imgs.map Prod.fst = chartKeys) := by
  refine ⟨rfl, ?_⟩
  intro hs imgs h
  rw [gv_nonempty_some env store hs imgs h]
  exact ⟨rfl, rfl⟩

/-- C5 witness: a one-observation store in the all-success environment
yields exactly the four chart entries. -/
theorem generate_visualizations_contract_witness :
    ([(⟨1, 2, 3, 0⟩ : Obs)] ≠ []) ∧
    (generate_visualizations env0 [⟨1, 2, 3, 0⟩]).1.1 = some chartEntries ∧
    (chartEntries.length = 4 ∧ chartEntries.map Prod.fst = chartKeys) :=
  ⟨by decide, rfl,
   (generate_visualizations_contract env0 [⟨1, 2, 3, 0⟩]).2 (by decide) chartEntries rfl⟩

/-- C6: when some chart of the batch fails to render, the whole batch fails
soft: the failure is logged, the images result handed to the caller is the
null result (never a partial dictionary), and the prediction itself still
succeeds — the results page carries the summary string for the assigned
label and the observation stays appended to the store. -/
theorem charts_fail_soft (m : Model) (env : Env) (age income score : ℤ) (store : List Obs)
    (ha : 0 < age) (hi : 0 < income) (hs1 : 0 < score) (hs2 : score ≤ 100)
    (hmk : env.mkdirsOk = true) (hrd : env.renderOk = true)
    (k : Nat) (hcf : env.chartFail = some k) (hk : k < 4) :
    predict m env ⟨.intVal age, .intVal income, .intVal score⟩ store =
      (.page (summaryString (assignedLabel m age income score)) none,
       store ++ [mkObs m age income score],
       ["Error generating visualizations"]) := by
  have hv : validInput age income score = true :=
    (validInput_iff age income score).mpr ⟨ha, hi, hs1, hs2⟩
  have hne : (store ++ [mkObs m age income score]).isEmpty = false := by
    cases store <;> rfl
  have hgv : generate_visualizations env (store ++ [mkObs m age income score]) =
      ((none, ["Error generating visualizations"]), store ++ [mkObs m age income score]) := by
    simp [generate_visualizations, hne, hcf, buildCharts_lt k hk]
  simp [predict, parseField, hv, hmk, hrd, hgv]

/-- C6 witness: a failure while rendering the first chart, on the spec
scenario input, in an otherwise successful environment. -/
theorem charts_fail_soft_witness :
    predict M0 ⟨true, true, some 0⟩ ⟨.intVal 25, .intVal 40, .intVal 60⟩ [] =
      (.page (summaryString (assignedLabel M0 25 40 60)) none,
       [] ++ [mkObs M0 25 40 60],
       ["Error generating visualizations"]) :=
  charts_fail_soft M0 ⟨true, true, some 0⟩ 25 40 60 []
    (by decide) (by decide) (by decide) (by decide) rfl rfl 0 rfl (by decide)

/-- One request-level operation of the program touching the observation
store: a predict request or a standalone visualization pass. -/
inductive Op where
  | predictReq (env : Env) (f : Form)
  | vizReq (env : Env)

/-- The observation store after one operation. -/
def step (m : Model) (store : List Obs) : Op → List Obs
  | .predictReq env f => (predict m env f store).2.1
  | .vizReq env => (generate_visualizations env store).2

/-- The observation store after a sequence of operations. -/
def runOps (m : Model) (store : List Obs) : List Op → List Obs
  | [] => store
  | op :: rest => runOps m (step m store op) rest

lemma step_extends (m : Model) (store : List Obs) (op : Op) :
    ∃ t, step m store op = store ++ t := by
  cases op with
  | predictReq env f => exact predict_store_extends m env f store
  | vizReq env => exact ⟨[], by simp [step, gv_preserves_store]⟩

/-- C7: the observation store is append-only across every operation of the
program: after any sequence of predict and visualization calls, the prior
contents are a prefix of the new contents — nothing is modified or deleted,
and insertion order equals submission order. -/
theorem store_append_only (m : Model) (ops : List Op) (store : List Obs) :
    ∃ t, runOps m store ops = store ++ t := by
  induction ops generalizing store with
  | nil => exact ⟨[], by simp [runOps]⟩
  | cons op rest ih =>
    obtain ⟨u, hu⟩ := step_extends m store op
    obtain ⟨t, ht⟩ := ih (step m store op)
    exact ⟨u ++ t, by rw [runOps, ht, hu, List.append_assoc]⟩

/-- C8: the visualization generator consumes the observation store
read-only: for every store state it leaves the store exactly as it was,
whether chart generation succeeds or fails. -/
theorem generate_visualizations_readonly (env : Env) (store : List Obs) :
    (generate_visualizations env store).2 = store :=
  gv_preserves_store env store

lemma invalidForm_of_missing (f : Form)
    (h : f.age = Field.missing ∨ f.income = Field.missing ∨ f.score = Field.missing) :
    invalidForm f = true := by
  rcases f with ⟨fa, fi, fs⟩
  rcases h with h | h | h
  · subst h
    cases fi <;> cases fs <;> simp [invalidForm, parseField, validInput]
  · subst h
    cases fa <;> cases fs <;> simp [invalidForm, parseField, validInput]
  · subst h
    cases fa <;> cases fi <;> simp [invalidForm, parseField, validInput]

/-- C9: an absent form field defaults to the value 0, which fails the range
validation (any zero among age, income, score makes the check false), so a
request with a missing field is rejected on the invalid-input path with the
store unchanged — not by a distinct missing-field error and not by a crash. -/
theorem missing_field_rejected (m : Model) (env : Env) (f : Form) (store : List Obs)
    (h : f.age = Field.missing ∨ f.income = Field.missing ∨ f.score = Field.missing) :
    parseField Field.missing = some 0 ∧
    (∀ a i s : ℤ, a = 0 ∨ i = 0 ∨ s = 0 → validInput a i s = false) ∧
    (predict m env f store).2.1 = store ∧
    ∃ msg, (predict m env f store).1 = PredictResult.errorRedirect msg := by
  refine ⟨rfl, ?_, ?_, ?_⟩
  · intro a i s hz
    rcases hz with hz | hz | hz <;> subst hz <;> simp [validInput]
  · exact (predict_invalid_aux m env f store (invalidForm_of_missing f h)).1
  · exact (predict_invalid_aux m env f store (invalidForm_of_missing f h)).2

/-- C9 witness: a request missing the age field, with valid income and
score, starting from the empty store. -/
theorem missing_field_rejected_witness :
    parseField Field.missing = some 0 ∧
    (∀ a i s : ℤ, a = 0 ∨ i = 0 ∨ s = 0 → validInput a i s = false) ∧
    (predict M0 env0 ⟨Field.missing, .intVal 40, .intVal 60⟩ []).2.1 = [] ∧
    ∃ msg, (predict M0 env0 ⟨Field.missing, .intVal 40, .intVal 60⟩ []).1 =
      PredictResult.errorRedirect msg :=
  missing_field_rejected M0 env0 ⟨Field.missing, .intVal 40, .intVal 60⟩ [] (Or.inl rfl)

/-- The environment in which os.makedirs raises after the append step. -/
def envNoMkdirs : Env := ⟨false, true, none⟩

/-- C10: an error response from predict does not guarantee an unchanged
store: on a valid input in an environment where os.makedirs raises after the
append step, predict takes the error path yet the store has grown by the
one appended observation — atomicity holds only for failures before the
append. -/
theorem predict_error_after_append :
    (predict M0 envNoMkdirs ⟨.intVal 25, .intVal 40, .intVal 60⟩ []).1 =
      PredictResult.errorRedirect "Error processing your request: makedirs failed" ∧
    (predict M0 envNoMkdirs ⟨.intVal 25, .intVal 40, .intVal 60⟩ []).2.1 =
      [mkObs M0 25 40 60] ∧
    (predict M0 envNoMkdirs ⟨.intVal 25, .intVal 40, .intVal 60⟩ []).2.1.length =
      ([] : List Obs).length + 1 := by
  refine ⟨?_, ?_, ?_⟩ <;> simp [predict, parseField, validInput, envNoMkdirs]

end App
